import Mathlib

/-!
Verification of the luv crate (sRGB / CIE Luv / LCh colour conversions)
against its natural-language specification.

Embedding conventions:
- f32 values are embedded as exact rationals.  All arithmetic in the source
  is embedded exactly (no rounding); `mul_add` is a fused multiply-add in
  f32 and therefore exactly `a * b + c` here.
- External collaborators (the srgb crate conversions `xyz_from_u8` and
  `u8_from_xyz`, the D65 white point triple, and the `powf` intrinsic) are
  passed as explicit function or value parameters: every theorem holds for
  an arbitrary interpretation of them.
- The leaf comparisons of the approx crate for f32 are modelled from that
  crate: `abs_diff_eq a b eps` is `|a - b| <= eps` and `default_epsilon`
  is `f32::EPSILON = 2 ^ (-23)`.
- The constant `TAU` is the exact rational value of the f32 constant
  `std::f32::consts::TAU`, namely 13176795 / 2^21.
-/

/-- Rgb models `[u8; 3]` as a triple of naturals. -/
abbrev Rgb := ℕ × ℕ × ℕ

/-- Xyz models `[f32; 3]` as a triple of rationals. -/
abbrev Xyz := ℚ × ℚ × ℚ

/-- Luv models the `Luv` struct of src/lib.rs (fields l, u, v : f32). -/
structure Luv where
  l : ℚ
  u : ℚ
  v : ℚ

/-- LCh models the `LCh` struct of src/lib.rs (fields l, c, h : f32). -/
structure LCh where
  l : ℚ
  c : ℚ
  h : ℚ

/-- Default instance derived in the source (all fields zero). -/
def Luv.default : Luv := ⟨0, 0, 0⟩

/-- Exact rational value of the f32 constant `std::f32::consts::TAU`. -/
def TAU : ℚ := 13176795 / 2097152

/-- Translation of `f32::rem_euclid` for a positive modulus: the
least non-negative representative, `x - y * ⌊x / y⌋`. -/
def rem_euclid (x y : ℚ) : ℚ := x - y * ⌊x / y⌋

/-- Translation of `f32::mul_add` (fused, hence exact in this embedding). -/
def f32.mul_add (a b c : ℚ) : ℚ := a * b + c

/-- Constant κ from src/lib.rs line 134. -/
def KAPPA : ℚ := 24389 / 27

/-- Constant 1/κ from src/lib.rs line 135. -/
def ONE_OVER_KAPPA : ℚ := 27 / 24389

/-- Constant ε from src/lib.rs line 136. -/
def EPSILON : ℚ := 216 / 24389

/-- Constant κ·ε from src/lib.rs line 137 (written 8.0 in the source). -/
def KAPPA_EPSILON : ℚ := 8

/-- Translation of WHITE_U_PRIME (src/lib.rs lines 140-141), parametric in
the external D65_XYZ triple of the srgb crate. -/
def WHITE_U_PRIME (d65 : Xyz) : ℚ :=
  4 * d65.1 / (d65.1 + 15 * d65.2.1 + 3 * d65.2.2)

/-- Translation of WHITE_V_PRIME (src/lib.rs lines 142-143), parametric in
the external D65_XYZ triple of the srgb crate. -/
def WHITE_V_PRIME (d65 : Xyz) : ℚ :=
  9 * d65.2.1 / (d65.1 + 15 * d65.2.1 + 3 * d65.2.2)

/-- Translation of `impl PartialEq<Luv> for Luv` (src/lib.rs lines 440-451). -/
def Luv.eq (a b : Luv) : Bool :=
  if a.l ≠ b.l then false
  else if a.l = 0 then true
  else a.u == b.u && a.v == b.v

/-- Translation of `impl PartialEq<LCh> for LCh` (src/lib.rs lines 453-470). -/
def LCh.eq (a b : LCh) : Bool :=
  if a.l ≠ b.l then false
  else if a.l = 0 then true
  else if a.c ≠ b.c then false
  else if a.c = 0 then true
  else rem_euclid a.h TAU == rem_euclid b.h TAU

/-- Translation of `Luv::squared_distance` (src/lib.rs lines 332-336). -/
def Luv.squared_distance (a b : Luv) : ℚ :=
  (a.l - b.l) ^ 2 + (a.u - b.u) ^ 2 + (a.v - b.v) ^ 2

/-- Translation of `luv_eq` (src/approx_impl.rs lines 23-35), generic over
the leaf comparison exactly as the source is generic over `eq`. -/
def luv_eq (eq : ℚ → ℚ → Bool) (a b : Luv) : Bool :=
  if !(eq a.l b.l) then false
  else if eq a.l 0 || eq b.l 0 then true
  else eq a.u b.u && eq a.v b.v

/-- Translation of `lch_eq` (src/approx_impl.rs lines 37-54).  Note that
the source tests `eq(rhs.c, 0.0) || eq(rhs.c, 0.0)` — the right-hand
operand twice — and that duplication is kept verbatim here. -/
def lch_eq (eq : ℚ → ℚ → Bool) (a b : LCh) : Bool :=
  if !(eq a.l b.l) then false
  else if eq a.l 0 || eq b.l 0 then true
  else if !(eq a.c b.c) then false
  else if eq b.c 0 || eq b.c 0 then true
  else eq (rem_euclid a.h TAU) (rem_euclid b.h TAU)

/-- Modelled from the approx crate (external collaborator): the f32 leaf
test `AbsDiffEq::abs_diff_eq`, which is `|a - b| <= epsilon`. -/
def f32.abs_diff_eq (a b epsilon : ℚ) : Bool := decide (|a - b| ≤ epsilon)

/-- Modelled from the approx crate (external collaborator): the f32 leaf
test `RelativeEq::relative_eq` (the infinity handling of the original is
vacuous in an exact-rational embedding). -/
def f32.relative_eq (a b epsilon max_relative : ℚ) : Bool :=
  if a = b then true
  else if |a - b| ≤ epsilon then true
  else decide (|a - b| ≤ max |a| |b| * max_relative)

/-- Modelled from the approx crate (external collaborator):
`f32::EPSILON = 2 ^ (-23)`, the machine epsilon of f32. -/
def f32.EPSILON : ℚ := 1 / 8388608

/-- Modelled from the approx crate: `<f32 as AbsDiffEq>::default_epsilon`
returns `f32::EPSILON`. -/
def f32.default_epsilon : ℚ := f32.EPSILON

/-- Modelled from the approx crate: `<f32 as RelativeEq>::default_max_relative`
returns `f32::EPSILON`. -/
def f32.default_max_relative : ℚ := f32.EPSILON

/-- Translation of `AbsDiffEq::default_epsilon` for Luv generated by the
`approx_impl!` macro (src/approx_impl.rs line 61): delegates to f32. -/
def Luv.default_epsilon : ℚ := f32.default_epsilon

/-- Translation of `RelativeEq::default_max_relative` for Luv
(src/approx_impl.rs lines 69-71): delegates to f32. -/
def Luv.default_max_relative : ℚ := f32.default_max_relative

/-- Translation of `AbsDiffEq::default_epsilon` for LCh. -/
def LCh.default_epsilon : ℚ := f32.default_epsilon

/-- Translation of `RelativeEq::default_max_relative` for LCh. -/
def LCh.default_max_relative : ℚ := f32.default_max_relative

/-- Translation of `AbsDiffEq::abs_diff_eq` for Luv generated by
`approx_impl!` (src/approx_impl.rs lines 63-65). -/
def Luv.abs_diff_eq (a b : Luv) (epsilon : ℚ) : Bool :=
  luv_eq (fun x y => f32.abs_diff_eq x y epsilon) a b

/-- Translation of `AbsDiffEq::abs_diff_eq` for LCh generated by
`approx_impl!` (src/approx_impl.rs lines 63-65). -/
def LCh.abs_diff_eq (a b : LCh) (epsilon : ℚ) : Bool :=
  lch_eq (fun x y => f32.abs_diff_eq x y epsilon) a b

/-- Translation of `RelativeEq::relative_eq` for Luv generated by
`approx_impl!` (src/approx_impl.rs lines 73-82). -/
def Luv.relative_eq (a b : Luv) (epsilon max_relative : ℚ) : Bool :=
  luv_eq (fun x y => f32.relative_eq x y epsilon max_relative) a b

/-- Translation of `RelativeEq::relative_eq` for LCh generated by
`approx_impl!` (src/approx_impl.rs lines 73-82). -/
def LCh.relative_eq (a b : LCh) (epsilon max_relative : ℚ) : Bool :=
  lch_eq (fun x y => f32.relative_eq x y epsilon max_relative) a b

/-- Skeleton the claim asserts for the approximate LCh comparison: the
short-circuit structure of structural equality with the approximate test
substituted at each leaf (structural equality tests the left operand, that
is the common value, in the two degenerate branches). -/
def lch_eq_claimed (eq : ℚ → ℚ → Bool) (a b : LCh) : Bool :=
  if !(eq a.l b.l) then false
  else if eq a.l 0 then true
  else if !(eq a.c b.c) then false
  else if eq a.c 0 then true
  else eq (rem_euclid a.h TAU) (rem_euclid b.h TAU)

/-- Translation of `luv_from_xyz` (src/lib.rs lines 145-162).  The early
return for y <= 0 is translated as the outer branch; `powf` is the
external f32 intrinsic, passed as a parameter, and the D65 white point of
the srgb crate is the parameter d65. -/
def luv_from_xyz (powf : ℚ → ℚ → ℚ) (d65 : Xyz) : Xyz → Luv
  | (x, y, z) =>
    if y ≤ 0 then Luv.default
    else
      let l := if y ≤ EPSILON then KAPPA * y
               else f32.mul_add (powf y (1 / 3)) 116 (-16)
      let d := f32.mul_add y 15 (f32.mul_add z 3 x)
      let ll := 13 * l
      let u := ll * f32.mul_add (x / d) 4 (-WHITE_U_PRIME d65)
      let v := ll * f32.mul_add (y / d) 9 (-WHITE_V_PRIME d65)
      Luv.mk l u v

/-- Formula stated by the spec for the XYZ to Luv conversion: zero for
y <= 0, the piecewise luminance law, denominator d = x + 15y + 3z, and
chromaticity u = 13l(4x/d - uw), v = 13l(9y/d - vw) for the reference
white chromaticities uw, vw. -/
def luv_from_xyz_spec (powf : ℚ → ℚ → ℚ) (d65 : Xyz) : Xyz → Luv
  | (x, y, z) =>
    if y ≤ 0 then Luv.mk 0 0 0
    else
      let l := if y ≤ EPSILON then KAPPA * y else 116 * powf y (1 / 3) - 16
      let d := x + 15 * y + 3 * z
      Luv.mk l
        (13 * l * (4 * x / d - WHITE_U_PRIME d65))
        (13 * l * (9 * y / d - WHITE_V_PRIME d65))

/-- Translation of `xyz_from_luv` (src/lib.rs lines 164-183). -/
def xyz_from_luv (d65 : Xyz) (luv : Luv) : Xyz :=
  if luv.l ≤ 0 then (0, 0, 0)
  else
    let ll := 13 * luv.l
    let u_prime := luv.u / ll + WHITE_U_PRIME d65
    let v_prime := luv.v / ll + WHITE_V_PRIME d65
    let y := if luv.l > KAPPA_EPSILON then ((luv.l + 16) / 116) ^ 3
             else luv.l * ONE_OVER_KAPPA
    let a := 0.75 * y * u_prime / v_prime
    let x := 3 * a
    let z := y * (3 - 5 * v_prime) / v_prime - a
    (x, y, z)

/-- Formula stated by the spec for the Luv to XYZ conversion: zero for
l <= 0, recovery of the primed chromaticities, the inverse piecewise
luminance law with threshold κ·ε = 8 and y = l / κ on the linear branch,
and the back-substitution a = 0.75·y·uprime/vprime, x = 3a,
z = y(3 - 5·vprime)/vprime - a. -/
def xyz_from_luv_spec (d65 : Xyz) (luv : Luv) : Xyz :=
  if luv.l ≤ 0 then (0, 0, 0)
  else
    let u_prime := luv.u / (13 * luv.l) + WHITE_U_PRIME d65
    let v_prime := luv.v / (13 * luv.l) + WHITE_V_PRIME d65
    let y := if luv.l > KAPPA_EPSILON then ((luv.l + 16) / 116) ^ 3
             else luv.l / KAPPA
    let a := 0.75 * y * u_prime / v_prime
    (3 * a, y, y * (3 - 5 * v_prime) / v_prime - a)

/-- Translation of `Luv::from_rgb` (src/lib.rs lines 279-281): the
external srgb conversion `xyz_from_u8` followed by `luv_from_xyz`. -/
def Luv.from_rgb (powf : ℚ → ℚ → ℚ) (xyz_from_u8 : Rgb → Xyz) (d65 : Xyz)
    (rgb : Rgb) : Luv :=
  luv_from_xyz powf d65 (xyz_from_u8 rgb)

/-- Translation of `Luv::to_rgb` (src/lib.rs line 315): `xyz_from_luv`
followed by the external srgb conversion `u8_from_xyz`. -/
def Luv.to_rgb (u8_from_xyz : Xyz → Rgb) (d65 : Xyz) (luv : Luv) : Rgb :=
  u8_from_xyz (xyz_from_luv d65 luv)

/-- Translation of `rgbs_to_luvs` (src/lib.rs lines 199-201): element-wise
map of `Luv::from_rgb`. -/
def rgbs_to_luvs (powf : ℚ → ℚ → ℚ) (xyz_from_u8 : Rgb → Xyz) (d65 : Xyz)
    (rgbs : List Rgb) : List Luv :=
  rgbs.map (Luv.from_rgb powf xyz_from_u8 d65)

/-- Translation of `luvs_to_rgbs` (src/lib.rs lines 237-239): element-wise
map of `Luv::to_rgb`. -/
def luvs_to_rgbs (u8_from_xyz : Xyz → Rgb) (d65 : Xyz)
    (luvs : List Luv) : List Rgb :=
  luvs.map (Luv.to_rgb u8_from_xyz d65)

/-- Translation of `slice::chunks_exact(3)` followed by the infallible
`try_into` of each 3-chunk: the complete leading triples of the list, any
trailing 1 or 2 elements discarded. -/
def chunks_exact3 : List ℕ → List Rgb
  | a :: b :: c :: rest => (a, b, c) :: chunks_exact3 rest
  | _ => []

/-- Translation of `rgb_bytes_to_luvs` (src/lib.rs lines 216-222):
`chunks_exact(3)` then `Luv::from_rgb` on each triple.  The function is
total and returns a plain list: there is no error value in its type. -/
def rgb_bytes_to_luvs (powf : ℚ → ℚ → ℚ) (xyz_from_u8 : Rgb → Xyz)
    (d65 : Xyz) (bytes : List ℕ) : List Luv :=
  (chunks_exact3 bytes).map (Luv.from_rgb powf xyz_from_u8 d65)

noncomputable section

namespace RealModel

/-- LuvR is the Luv struct with the f32 fields embedded as reals, used for
the claims about the transcendental intrinsics hypot and atan2. -/
structure LuvR where
  l : ℝ
  u : ℝ
  v : ℝ

/-- LChR is the LCh struct with the f32 fields embedded as reals. -/
structure LChR where
  l : ℝ
  c : ℝ
  h : ℝ

/-- Modelled from the Rust standard library (external intrinsic):
`f32::hypot` is the Euclidean norm of its two arguments. -/
def hypot (x y : ℝ) : ℝ := Real.sqrt (x ^ 2 + y ^ 2)

/-- Modelled from the Rust standard library (external intrinsic):
`y.atan2(x)` is the two-argument arctangent, the angle of the point (x, y),
with atan2 of the origin equal to zero. -/
def atan2 (y x : ℝ) : ℝ :=
  if 0 < x then Real.arctan (y / x)
  else if x < 0 then
    if 0 ≤ y then Real.arctan (y / x) + Real.pi
    else Real.arctan (y / x) - Real.pi
  else if 0 < y then Real.pi / 2
  else if y < 0 then -(Real.pi / 2)
  else 0

/-- Translation of `LCh::from_luv` (src/lib.rs lines 386-392):
l unchanged, c = hypot of u and v, h = atan2 of v and u. -/
def LChR.from_luv (luv : LuvR) : LChR :=
  { l := luv.l, c := hypot luv.u luv.v, h := atan2 luv.v luv.u }

end RealModel

end

/-- Helper: decision table for structural Luv equality. -/
theorem luv_structural_eq_table (a b : Luv) :
    Luv.eq a b = true ↔ (a.l = b.l ∧ (a.l = 0 ∨ (a.u = b.u ∧ a.v = b.v))) := by
  unfold Luv.eq
  split_ifs with h1 h2 <;> simp_all

/-- Helper: decision table for structural LCh equality. -/
theorem lch_structural_eq_table (a b : LCh) :
    LCh.eq a b = true ↔
      (a.l = b.l ∧ (a.l = 0 ∨ (a.c = b.c ∧
        (a.c = 0 ∨ rem_euclid a.h TAU = rem_euclid b.h TAU)))) := by
  unfold LCh.eq
  split_ifs with h1 h2 h3 h4 <;> simp_all

/-- Helper: rem_euclid with a non-zero modulus is periodic in integer
multiples of the modulus. -/
theorem rem_euclid_add_int_mul (x y : ℚ) (k : ℤ) (hy : y ≠ 0) :
    rem_euclid (x + k * y) y = rem_euclid x y := by
  unfold rem_euclid
  have hdiv : (x + k * y) / y = x / y + k := by
    field_simp
  rw [hdiv, Int.floor_add_int]
  push_cast
  ring

/-- Claim C6: structural equality follows the stated decision table: on
Luv, equal iff the l components are equal and either l is zero or u and v
are exactly equal; on LCh, equal iff the l components are equal and either
l is zero, or the c components are equal and either c is zero or the
Euclidean remainders of the h components modulo TAU are equal. -/
theorem structural_eq_decision_table (a b : Luv) (p q : LCh) :
    (Luv.eq a b = true ↔ (a.l = b.l ∧ (a.l = 0 ∨ (a.u = b.u ∧ a.v = b.v)))) ∧
    (LCh.eq p q = true ↔
      (p.l = q.l ∧ (p.l = 0 ∨ (p.c = q.c ∧
        (p.c = 0 ∨ rem_euclid p.h TAU = rem_euclid q.h TAU))))) :=
  ⟨luv_structural_eq_table a b, lch_structural_eq_table p q⟩

/-- Claim C3: for every LCh value with nonzero l and nonzero c and every
integer k, the value with hue h and the otherwise identical value with hue
h + k · TAU compare equal under structural LCh equality. -/
theorem lch_hue_periodic (l c h : ℚ) (k : ℤ) (hl : l ≠ 0) (hc : c ≠ 0) :
    LCh.eq ⟨l, c, h⟩ ⟨l, c, h + k * TAU⟩ = true := by
  refine (lch_structural_eq_table _ _).mpr ⟨rfl, Or.inr ⟨rfl, Or.inr ?_⟩⟩
  have htau : TAU ≠ 0 := by norm_num [TAU]
  exact (rem_euclid_add_int_mul h TAU k htau).symm

/-- Witness for lch_hue_periodic at l = 1, c = 1, h = 0, k = 1. -/
theorem lch_hue_periodic_witness :
    (1 : ℚ) ≠ 0 ∧ LCh.eq ⟨1, 1, 0⟩ ⟨1, 1, 0 + 1 * TAU⟩ = true :=
  ⟨by decide, lch_hue_periodic 1 1 0 1 (by decide) (by decide)⟩

/-- Claim C7: squared_distance is reflexively zero and symmetric, and is
the sum of squared componentwise differences. -/
theorem squared_distance_props (a b : Luv) :
    Luv.squared_distance a a = 0 ∧
    Luv.squared_distance a b = Luv.squared_distance b a ∧
    Luv.squared_distance a b =
      (a.l - b.l) ^ 2 + (a.u - b.u) ^ 2 + (a.v - b.v) ^ 2 := by
  refine ⟨?_, ?_, rfl⟩ <;> unfold Luv.squared_distance <;> ring

/-- Helper: the approximate Luv comparison, for any leaf test, equals the
decision table with either operand collapsing the luminance. -/
theorem luv_eq_true_iff (eq : ℚ → ℚ → Bool) (a b : Luv) :
    luv_eq eq a b = true ↔
      (eq a.l b.l = true ∧ (eq a.l 0 = true ∨ eq b.l 0 = true ∨
        (eq a.u b.u = true ∧ eq a.v b.v = true))) := by
  unfold luv_eq
  split_ifs with h1 h2 <;> simp_all <;> tauto

/-- Helper: the approximate LCh comparison, for any leaf test, equals the
decision table in which the zero-chroma collapse tests only the right-hand
operand. -/
theorem lch_eq_true_iff (eq : ℚ → ℚ → Bool) (a b : LCh) :
    lch_eq eq a b = true ↔
      (eq a.l b.l = true ∧ (eq a.l 0 = true ∨ eq b.l 0 = true ∨
        (eq a.c b.c = true ∧ (eq b.c 0 = true ∨
          eq (rem_euclid a.h TAU) (rem_euclid b.h TAU) = true)))) := by
  unfold lch_eq
  split_ifs with h1 h2 h3 h4 <;> simp_all <;> tauto

/-- Helper: a value already in the interval from zero up to the modulus is
its own Euclidean remainder. -/
theorem rem_euclid_of_nonneg_of_lt (x y : ℚ) (hx : 0 ≤ x) (hxy : x < y) :
    rem_euclid x y = x := by
  have hy : 0 < y := lt_of_le_of_lt hx hxy
  have hfl : ⌊x / y⌋ = 0 :=
    Int.floor_eq_zero_iff.mpr ⟨div_nonneg hx hy.le, (div_lt_one hy).mpr hxy⟩
  unfold rem_euclid
  rw [hfl]
  ring

/-- Helper: decision table for the skeleton described by the claim. -/
theorem lch_eq_claimed_true_iff (eq : ℚ → ℚ → Bool) (a b : LCh) :
    lch_eq_claimed eq a b = true ↔
      (eq a.l b.l = true ∧ (eq a.l 0 = true ∨
        (eq a.c b.c = true ∧ (eq a.c 0 = true ∨
          eq (rem_euclid a.h TAU) (rem_euclid b.h TAU) = true)))) := by
  unfold lch_eq_claimed
  split_ifs with h1 h2 h3 h4 <;> simp_all <;> tauto

/-- Counterexample for claim C2: the default absolute epsilon is not
1 / 10000, and at a concrete input the LCh comparison with the absolute
leaf test differs from the skeleton the claim describes (structural
equality with the approximate test substituted at each leaf). -/
theorem approx_eq_claim_counterexample :
    f32.default_epsilon ≠ 1 / 10000 ∧
    lch_eq (fun x y => f32.abs_diff_eq x y 1) ⟨10, 2, 0⟩ ⟨10, 1, 3⟩ ≠
      lch_eq_claimed (fun x y => f32.abs_diff_eq x y 1) ⟨10, 2, 0⟩ ⟨10, 1, 3⟩ := by
  have h3 : rem_euclid 3 TAU = 3 :=
    rem_euclid_of_nonneg_of_lt 3 TAU (by norm_num) (by norm_num [TAU])
  have h0 : rem_euclid 0 TAU = 0 :=
    rem_euclid_of_nonneg_of_lt 0 TAU le_rfl (by norm_num [TAU])
  have hL : lch_eq (fun x y => f32.abs_diff_eq x y 1) ⟨10, 2, 0⟩ ⟨10, 1, 3⟩ = true := by
    rw [lch_eq_true_iff]
    norm_num [f32.abs_diff_eq]
  have hR : lch_eq_claimed (fun x y => f32.abs_diff_eq x y 1) ⟨10, 2, 0⟩ ⟨10, 1, 3⟩ = false := by
    rw [← Bool.not_eq_true, lch_eq_claimed_true_iff]
    norm_num [f32.abs_diff_eq, h3, h0]
  refine ⟨by norm_num [f32.default_epsilon, f32.EPSILON], ?_⟩
  rw [hL, hR]
  decide

/-- Claim C2 as amended: for every leaf comparison (hence for all three
strengths: absolute, relative and ULP), the Luv and LCh approximate
comparisons follow the short-circuit skeleton of structural equality
except that the zero-luminance collapse fires when either operand has
approximately zero luminance and the zero-chroma collapse tests only the
right-hand operand; hue is compared modulo TAU; and the default absolute
and relative epsilon is the f32 machine epsilon 2 ^ (-23). -/
theorem approx_eq_amended :
    (∀ (eq : ℚ → ℚ → Bool) (a b : Luv),
      luv_eq eq a b = true ↔
        (eq a.l b.l = true ∧ (eq a.l 0 = true ∨ eq b.l 0 = true ∨
          (eq a.u b.u = true ∧ eq a.v b.v = true)))) ∧
    (∀ (eq : ℚ → ℚ → Bool) (a b : LCh),
      lch_eq eq a b = true ↔
        (eq a.l b.l = true ∧ (eq a.l 0 = true ∨ eq b.l 0 = true ∨
          (eq a.c b.c = true ∧ (eq b.c 0 = true ∨
            eq (rem_euclid a.h TAU) (rem_euclid b.h TAU) = true))))) ∧
    Luv.default_epsilon = 1 / 8388608 ∧
    Luv.default_max_relative = 1 / 8388608 ∧
    LCh.default_epsilon = 1 / 8388608 ∧
    LCh.default_max_relative = 1 / 8388608 :=
  ⟨luv_eq_true_iff, lch_eq_true_iff, rfl, rfl, rfl, rfl⟩

/-- Claim C10: absolute-epsilon approximate equality on LCh is not
symmetric: there are values a, b and an epsilon with a approximately
equal to b but b not approximately equal to a, because the zero-chroma
collapse tests only the right-hand operand. -/
theorem lch_abs_diff_eq_asymmetric :
    ∃ (a b : LCh) (epsilon : ℚ),
      LCh.abs_diff_eq a b epsilon = true ∧ LCh.abs_diff_eq b a epsilon = false := by
  have h3 : rem_euclid 3 TAU = 3 :=
    rem_euclid_of_nonneg_of_lt 3 TAU (by norm_num) (by norm_num [TAU])
  have h0 : rem_euclid 0 TAU = 0 :=
    rem_euclid_of_nonneg_of_lt 0 TAU le_rfl (by norm_num [TAU])
  refine ⟨⟨10, 2, 0⟩, ⟨10, 1, 3⟩, 1, ?_, ?_⟩
  · rw [LCh.abs_diff_eq, lch_eq_true_iff]
    norm_num [f32.abs_diff_eq]
  · rw [LCh.abs_diff_eq, ← Bool.not_eq_true, lch_eq_true_iff]
    norm_num [f32.abs_diff_eq, h3, h0]

/-- Claim C4: luv_from_xyz is total and computes exactly the formula the
spec states, for every interpretation of the external cube root intrinsic
and every white point triple. -/
theorem luv_from_xyz_correct (powf : ℚ → ℚ → ℚ) (d65 : Xyz) (xyz : Xyz) :
    luv_from_xyz powf d65 xyz = luv_from_xyz_spec powf d65 xyz := by
  obtain ⟨x, y, z⟩ := xyz
  simp only [luv_from_xyz, luv_from_xyz_spec, f32.mul_add, Luv.default]
  split_ifs with h1 h2 <;> simp only [Luv.mk.injEq] <;>
    refine ⟨by ring, ?_, ?_⟩ <;>
    rw [show y * 15 + (z * 3 + x) = x + 15 * y + 3 * z by ring] <;> ring

/-- Claim C5: xyz_from_luv computes exactly the formula the spec states,
and the threshold constant is κ·ε = 8. -/
theorem xyz_from_luv_correct :
    KAPPA * EPSILON = KAPPA_EPSILON ∧
    ∀ (d65 : Xyz) (luv : Luv), xyz_from_luv d65 luv = xyz_from_luv_spec d65 luv := by
  refine ⟨by norm_num [KAPPA, EPSILON, KAPPA_EPSILON], fun d65 luv => ?_⟩
  have hk : luv.l * ONE_OVER_KAPPA = luv.l / KAPPA := by
    rw [ONE_OVER_KAPPA, KAPPA]
    ring_nf
  simp only [xyz_from_luv, xyz_from_luv_spec, hk]

/-- Helper: chunks_exact3 produces one triple per three input elements,
rounding down. -/
theorem chunks_exact3_length (l : List ℕ) :
    (chunks_exact3 l).length = l.length / 3 := by
  match l with
  | [] => rfl
  | [a] => simp [chunks_exact3]
  | [a, b] => simp [chunks_exact3]
  | a :: b :: c :: rest =>
    have ih := chunks_exact3_length rest
    simp only [chunks_exact3, List.length_cons, ih]
    omega

/-- Helper: appending fewer than three trailing elements to a list whose
length is a multiple of three does not change its exact chunks. -/
theorem chunks_exact3_append (l extra : List ℕ) (h3 : l.length % 3 = 0)
    (he : extra.length < 3) : chunks_exact3 (l ++ extra) = chunks_exact3 l := by
  match l with
  | [] =>
    match extra with
    | [] => rfl
    | [a] => rfl
    | [a, b] => rfl
    | a :: b :: c :: rest =>
      simp only [List.length_cons] at he
      omega
  | [a] => simp at h3
  | [a, b] => simp at h3
  | a :: b :: c :: rest =>
    have h3r : rest.length % 3 = 0 := by
      simp only [List.length_cons] at h3
      omega
    have ih := chunks_exact3_append rest extra h3r he
    simp only [List.cons_append, chunks_exact3]
    exact congrArg (List.cons (a, b, c)) ih

/-- Counterexample for claim C1: at the concrete input [1, 2, 3, 7], whose
length is not a multiple of 3, rgb_bytes_to_luvs (here instantiated with
arbitrary concrete external collaborators) returns the same single-element
result as on [1, 2, 3]: the trailing byte 7 is silently dropped, and the
return type of the function carries no error case at all, so no error is
signalled. -/
theorem rgb_bytes_to_luvs_truncates_counterexample :
    (rgb_bytes_to_luvs (fun _ _ => 0) (fun _ => (0, 0, 0)) (1, 1, 1)
        [1, 2, 3, 7]).length = 1 ∧
    rgb_bytes_to_luvs (fun _ _ => 0) (fun _ => (0, 0, 0)) (1, 1, 1)
        [1, 2, 3, 7] =
      rgb_bytes_to_luvs (fun _ _ => 0) (fun _ => (0, 0, 0)) (1, 1, 1)
        [1, 2, 3] :=
  ⟨rfl, rfl⟩

/-- Claim C1 as amended: rgb_bytes_to_luvs is total (no error signal) and
silently truncates — it converts the floor of length / 3 leading triples,
and appending a trailing remainder of 1 or 2 bytes to a well-formed input
leaves the output unchanged. -/
theorem rgb_bytes_to_luvs_truncates (powf : ℚ → ℚ → ℚ)
    (xyz_from_u8 : Rgb → Xyz) (d65 : Xyz) (bytes extra : List ℕ)
    (h3 : bytes.length % 3 = 0) (he : extra.length < 3) :
    (rgb_bytes_to_luvs powf xyz_from_u8 d65 (bytes ++ extra)).length =
      (bytes.length + extra.length) / 3 ∧
    rgb_bytes_to_luvs powf xyz_from_u8 d65 (bytes ++ extra) =
      rgb_bytes_to_luvs powf xyz_from_u8 d65 bytes := by
  constructor
  · rw [rgb_bytes_to_luvs, List.length_map, chunks_exact3_length,
      List.length_append]
  · rw [rgb_bytes_to_luvs, rgb_bytes_to_luvs,
      chunks_exact3_append bytes extra h3 he]

/-- Witness for rgb_bytes_to_luvs_truncates at bytes = [1, 2, 3] and
extra = [7], with concrete external collaborators. -/
theorem rgb_bytes_to_luvs_truncates_witness :
    ([1, 2, 3] : List ℕ).length % 3 = 0 ∧ ([7] : List ℕ).length < 3 ∧
    ((rgb_bytes_to_luvs (fun _ _ => 0) (fun _ => (0, 0, 0)) (1, 1, 1)
        ([1, 2, 3] ++ [7])).length = (([1, 2, 3] : List ℕ).length + ([7] : List ℕ).length) / 3 ∧
      rgb_bytes_to_luvs (fun _ _ => 0) (fun _ => (0, 0, 0)) (1, 1, 1)
          ([1, 2, 3] ++ [7]) =
        rgb_bytes_to_luvs (fun _ _ => 0) (fun _ => (0, 0, 0)) (1, 1, 1)
          [1, 2, 3]) :=
  ⟨by decide, by decide,
    rgb_bytes_to_luvs_truncates (fun _ _ => 0) (fun _ => (0, 0, 0)) (1, 1, 1)
      [1, 2, 3] [7] (by decide) (by decide)⟩

/-- Claim C8: the sequence batch conversions preserve length and order,
with element i of the output the single-value conversion of element i of
the input, and the composed batch round trip preserves length. -/
theorem batch_conversions_elementwise (powf : ℚ → ℚ → ℚ)
    (xyz_from_u8 : Rgb → Xyz) (u8_from_xyz : Xyz → Rgb) (d65 : Xyz)
    (xs : List Rgb) (ls : List Luv) :
    (rgbs_to_luvs powf xyz_from_u8 d65 xs).length = xs.length ∧
    (∀ i : ℕ, (rgbs_to_luvs powf xyz_from_u8 d65 xs).get? i =
      (xs.get? i).map (Luv.from_rgb powf xyz_from_u8 d65)) ∧
    (luvs_to_rgbs u8_from_xyz d65 ls).length = ls.length ∧
    (∀ i : ℕ, (luvs_to_rgbs u8_from_xyz d65 ls).get? i =
      (ls.get? i).map (Luv.to_rgb u8_from_xyz d65)) ∧
    (luvs_to_rgbs u8_from_xyz d65
      (rgbs_to_luvs powf xyz_from_u8 d65 xs)).length = xs.length := by
  refine ⟨?_, fun i => ?_, ?_, fun i => ?_, ?_⟩ <;>
    simp [rgbs_to_luvs, luvs_to_rgbs, List.get?_map]

namespace RealModel

/-- Helper: atan2 never exceeds pi. -/
theorem atan2_le_pi (y x : ℝ) : atan2 y x ≤ Real.pi := by
  have hpi := Real.pi_pos
  unfold atan2
  split_ifs with hx hx2 hy hy2 hy3
  · have h1 := Real.arctan_lt_pi_div_two (y / x)
    linarith
  · have hyx : y / x ≤ 0 := div_nonpos_iff.mpr (Or.inl ⟨hy, hx2.le⟩)
    have h1 : Real.arctan (y / x) ≤ 0 := by
      have h2 := Real.arctan_strictMono.monotone hyx
      simpa [Real.arctan_zero] using h2
    linarith
  · have h1 := Real.arctan_lt_pi_div_two (y / x)
    linarith
  · linarith
  · linarith
  · linarith

/-- Helper: atan2 is never below negative pi. -/
theorem neg_pi_le_atan2 (y x : ℝ) : -Real.pi ≤ atan2 y x := by
  have hpi := Real.pi_pos
  unfold atan2
  split_ifs with hx hx2 hy hy2 hy3
  · have h1 := Real.neg_pi_div_two_lt_arctan (y / x)
    linarith
  · have h1 := Real.neg_pi_div_two_lt_arctan (y / x)
    linarith
  · have hyx : 0 ≤ y / x := div_nonneg_iff.mpr (Or.inr ⟨(not_le.mp hy).le, hx2.le⟩)
    have h1 : 0 ≤ Real.arctan (y / x) := by
      have h2 := Real.arctan_strictMono.monotone hyx
      simpa [Real.arctan_zero] using h2
    linarith
  · linarith
  · linarith
  · linarith

/-- Claim C9: for every Luv input, LCh::from_luv returns a chroma that is
non-negative and a hue within the closed interval from negative pi to pi,
passes the luminance through unchanged, and returns hue zero when both u
and v are zero. -/
theorem lch_from_luv_invariants (luv : LuvR) :
    0 ≤ (LChR.from_luv luv).c ∧
    -Real.pi ≤ (LChR.from_luv luv).h ∧
    (LChR.from_luv luv).h ≤ Real.pi ∧
    (LChR.from_luv luv).l = luv.l ∧
    (LChR.from_luv ⟨luv.l, 0, 0⟩).h = 0 := by
  refine ⟨Real.sqrt_nonneg _, neg_pi_le_atan2 _ _, atan2_le_pi _ _, rfl, ?_⟩
  simp [LChR.from_luv, atan2]

end RealModel
